import Mathlib

/-!
Verification of the rpminspect command-line orchestration pipeline
(src/src/rpminspect/rpminspect.c) against its natural-language
specification.

Shallow embedding conventions:
  * C strings are `List Char` (`Str`).
  * External collaborators (librpm, mkdirp, gather_builds, rmtree, the
    inspection and format registries from librpminspect) are modelled by
    their observable outcomes, supplied as parameters of the pipeline.
  * The pipeline records the observable steps it performs as a list of
    `Event`s and returns the process exit status, mirroring the exact
    control flow of `main`.
-/

namespace Rpminspect

/-- C strings, modelled as lists of characters. -/
abbrev Str := List Char

/-- Value of `~(uint64_t)0`, i.e. the all-ones 64-bit selection bitmap. -/
def UINT64_MASK : Nat := 2 ^ 64 - 1

/-- Boolean character-inequality predicate used with `takeWhile`. -/
def notChar (c : Char) (a : Char) : Bool := a != c

/-- Model of `rindex(s, c)` followed by `pos + 1`: returns the suffix of
`s` strictly after the last occurrence of `c`, or `none` when `c` does
not occur in `s` (where `rindex` returns NULL). -/
def afterLast (c : Char) : Str → Option Str
  | [] => none
  | x :: xs =>
    match afterLast c xs with
    | some r => some r
    | none => if x = c then some xs else none

/-- Model of `s[strcspn(s, "/")] = 0`: the C code writes a NUL at the
first '/' of the string, truncating it there (rpminspect.c line 105 and
line 121). -/
def strcspnSlash (s : Str) : Str := s.takeWhile (notChar '/')

/-- Outcome of `get_product_release` (rpminspect.c lines 77-134).
`emptyAfter` is the NULL return after the diagnostic attributing the
failure to the after build (line 86).  `mismatch` is the NULL return
after the diagnostic naming both product tags (line 124).
`undefinedBehavior` marks the path at line 108 where the code computes
`rindex(before, '.') + 1` without checking for NULL: when `before` has
no '.', the code performs arithmetic on a null pointer and passes the
resulting invalid pointer to `strdup`, which is undefined behaviour (a
crash in practice).  The before-attributed "is empty" diagnostic at line
112 is reachable only when `strdup` itself fails (out of memory), which
this embedding does not model. -/
inductive GPRResult where
  | ok (tag : Str)
  | emptyAfter (after : Str)
  | mismatch (beforeTag afterTag : Str)
  | undefinedBehavior
deriving DecidableEq

/-- Embedding of `get_product_release` (rpminspect.c lines 77-134),
following the source line by line: `rindex(after, '.')` with NULL check
(lines 84-88), skip past the '.' and truncate at the first '/' (lines
94-105); when `before` is present, the same extraction without the NULL
check (lines 107-121), then `strcmp` of the two tags (lines 123-128). -/
def get_product_release (before : Option Str) (after : Str) : GPRResult :=
  match afterLast '.' after with
  | none => GPRResult.emptyAfter after
  | some pos =>
    let after_product := strcspnSlash pos
    match before with
    | none => GPRResult.ok after_product
    | some b =>
      match afterLast '.' b with
      | none => GPRResult.undefinedBehavior
      | some bpos =>
        let before_product := strcspnSlash bpos
        if before_product = after_product then GPRResult.ok after_product
        else GPRResult.mismatch before_product after_product

/-- Suffix of `s` after the last '.', truncated at the first '/'
thereafter, phrased independently of `afterLast` (via reversal). -/
def tagOf (s : Str) : Str :=
  ((s.reverse.takeWhile (notChar '.')).reverse).takeWhile (notChar '/')

/-- The product-release contract as the amended specification states it:
fail attributing the failure to the after build exactly when `after`
contains no '.'; otherwise the tag of an identifier is the substring
following its last '.' truncated at the first '/'; with a before build
supplied, differing tags are a mismatch naming both tags. -/
def resolveSpec (before? : Option Str) (after : Str) : GPRResult :=
  if ('.' ∈ after) then
    match before? with
    | none => GPRResult.ok (tagOf after)
    | some b =>
      if tagOf b = tagOf after then GPRResult.ok (tagOf after)
      else GPRResult.mismatch (tagOf b) (tagOf after)
  else GPRResult.emptyAfter after

/-- Model of `strcasecmp(a, b) == 0`: case-insensitive string equality. -/
def strcaseEq (a b : Str) : Bool := a.map Char.toLower == b.map Char.toLower

/-- One entry of the `inspections[]` registry from librpminspect (the
registry itself lives outside src/; the fields are those `main` reads:
`name`, `flag`, `single_build`).  The driver outcome is supplied
separately as a function, since drivers are external collaborators. -/
structure InspectionDescriptor where
  name : Str
  flag : Nat
  single_build : Bool
deriving DecidableEq

/-- Embedding of `process_inspection_flag` (rpminspect.c lines 183-218):
returns the `found` flag and the updated selection bitmap.  "ALL" sets
the bitmap to all ones (or all zeros when excluding); otherwise the
first registry entry whose name matches case-insensitively has its bit
set (or cleared, via `& ~flag` on 64 bits). -/
def process_inspection_flag (registry : List InspectionDescriptor) (inspection : Str)
    (exclude : Bool) (selected : Nat) : Bool × Nat :=
  if strcaseEq inspection (("ALL").toList) then
    if exclude then (true, 0) else (true, UINT64_MASK)
  else
    match registry.find? (fun d => strcaseEq inspection d.name) with
    | some d =>
      if exclude then (true, selected &&& (UINT64_MASK ^^^ (d.flag % 2 ^ 64)))
      else (true, selected ||| d.flag)
    | none => (false, selected)

/-- Result of processing the comma-separated token list of one -T or -E
option: the final bitmap, or the first unknown token (on which
`check_found` prints the unknown-test diagnostic and exits, rpminspect.c
lines 157-170). -/
def processTokens (registry : List InspectionDescriptor) (exclude : Bool) :
    List Str → Nat → Except Str Nat
  | [], selected => Except.ok selected
  | t :: ts, selected =>
    let r := process_inspection_flag registry t exclude selected
    if r.1 then processTokens registry exclude ts r.2 else Except.error t

/-- The two selection option modes: -T (tests) and -E (exclude). -/
inductive SelMode where
  | tests
  | exclude
deriving DecidableEq

/-- Outcome of the -T and -E option handling in the getopt loop: either the
updated state `(selected, inspection_opt, exclude)`, or a process exit
from `check_inspection_options` (the mutual-exclusion diagnostic,
rpminspect.c lines 139-151) or from `check_found` (unknown test). -/
inductive OptOutcome where
  | ok (selected : Nat) (inspection_opt : Bool) (exclude : Bool)
  | conflictExit
  | unknownExit (token : Str)
deriving DecidableEq

/-- Embedding of one pass through `case 'T': case 'E':` in the getopt
loop (rpminspect.c lines 279-298): first `check_inspection_options`
exits if a selection option was already processed; then the bitmap is
reset to 0 (for -T) or all ones (for -E) and each comma token is
processed in order; finally `inspection_opt` becomes true. -/
def processSelOption (registry : List InspectionDescriptor) (mode : SelMode)
    (tokens : List Str) (_selected : Nat) (inspection_opt : Bool) : OptOutcome :=
  if inspection_opt then OptOutcome.conflictExit
  else
    let excl := mode == SelMode.exclude
    let start := if excl then UINT64_MASK else 0
    match processTokens registry excl tokens start with
    | Except.ok s => OptOutcome.ok s true excl
    | Except.error t => OptOutcome.unknownExit t

/-- Processing of the -T and -E options of one invocation in command-line
order, starting from `selected = 0`, `inspection_opt = false`,
`exclude = false` (the initializers at rpminspect.c lines 258-260). -/
def processSelOptions (registry : List InspectionDescriptor) :
    List (SelMode × List Str) → Nat → Bool → Bool → OptOutcome
  | [], selected, iopt, excl => OptOutcome.ok selected iopt excl
  | (m, toks) :: rest, selected, iopt, _ =>
    match processSelOption registry m toks selected iopt with
    | OptOutcome.ok s io ex => processSelOptions registry rest s io ex
    | r => r

/-- Outcome of the architecture validation loop. -/
inductive ArchResult where
  | ok (arches : List Str)
  | unsupported (token : Str)
deriving DecidableEq

/-- Embedding of the architecture validation loop (rpminspect.c lines
505-531): each token is looked up in the list of valid architectures; on
the first miss the process exits naming that token; otherwise the token
is appended to `ri.arches` in order. -/
def validateArches (valid : List Str) : List Str → ArchResult
  | [] => ArchResult.ok []
  | t :: ts =>
    if valid.contains t then
      match validateArches valid ts with
      | ArchResult.ok rest => ArchResult.ok (t :: rest)
      | ArchResult.unsupported u => ArchResult.unsupported u
    else ArchResult.unsupported t

/-- Model of the `strsep(&walk, ",")` tokenization: split at every
comma, keeping empty tokens. -/
def splitComma : Str → List Str
  | [] => [[]]
  | c :: rest =>
    match splitComma rest with
    | [] => [[]]
    | t :: ts => if c = ',' then [] :: t :: ts else (c :: t) :: ts

/-- Observable steps of the pipeline in `main` after option parsing:
invoking `get_product_release`, validating the -a list, `mkdirp` of the
workdir, `gather_builds`, running one inspection driver, invoking the
output format driver, and the cleanup step (the keep message or
`rmtree`). -/
inductive Event where
  | resolveRelease
  | archValidate
  | mkdirWork
  | gatherBuilds
  | runInspection (name : Str)
  | formatResults
  | cleanupKeep
  | cleanupRemove
deriving DecidableEq

/-- Process exit status: `EXIT_SUCCESS` or `EXIT_FAILURE`. -/
inductive ExitStatus where
  | success
  | failure
deriving DecidableEq

/-- The fatal-error diagnostics `main` can emit after option parsing. -/
inductive MainError where
  | invalidBuildSpec
  | fetchOnlyTwoBuilds
  | productReleaseFail (r : GPRResult)
  | librpmFail
  | unsupportedArch (token : Str)
  | mkdirFail
  | gatherFail
  | conflictingSelection
  | unknownInspection (token : Str)
deriving DecidableEq

/-- Observable result of one invocation: the steps performed in order,
the process exit status, and the diagnostic of the aborting step, if
any. -/
structure MainResult where
  events : List Event
  exit : ExitStatus
  error : Option MainError
deriving DecidableEq

/-- Inputs of the pipeline: the command-line state left by the getopt
loop together with the outcomes of the external collaborators.
`tests` is `ri.tests` (the selection bitmap in effect), `librpmOk` the
outcome of `init_librpm`, `validArches` the list `get_all_arches`
returns, `mkdirOk` and `gatherOk` the outcomes of `mkdirp` and
`gather_builds`, `drivers` the outcome of each inspection driver by
name, and `results_nonempty` whether `ri.results` is non-NULL when
formatting is reached. -/
structure MainInput where
  positional : List Str
  fetch_only : Bool
  keep : Bool
  release : Option Str
  archopt : Option Str
  tests : Nat
  librpmOk : Bool
  validArches : List Str
  mkdirOk : Bool
  gatherOk : Bool
  drivers : Str → Bool
  results_nonempty : Bool

/-- Embedding of the positional-argument check (rpminspect.c lines
445-459): exactly one argument is the after build, exactly two are
before then after, anything else is the invalid-specification error. -/
def parsePositional : List Str → Option (Option Str × Str)
  | [a] => some (none, a)
  | [b, a] => some (some b, a)
  | _ => none

/-- The product-release step (rpminspect.c lines 475-483):
`get_product_release` runs only when no -r release was given; a NULL
result aborts the run. -/
def relCheck (inp : MainInput) (before? : Option Str) (after : Str) :
    List Event × Option MainError :=
  match inp.release with
  | some _ => ([], none)
  | none =>
    match get_product_release before? after with
    | GPRResult.ok _ => ([Event.resolveRelease], none)
    | r => ([Event.resolveRelease], some (MainError.productReleaseFail r))

/-- The architecture step (rpminspect.c lines 493-536): runs only when
-a was given; the first unsupported token aborts the run. -/
def archCheck (inp : MainInput) : List Event × Option MainError :=
  match inp.archopt with
  | none => ([], none)
  | some s =>
    match validateArches inp.validArches (splitComma s) with
    | ArchResult.ok _ => ([Event.archValidate], none)
    | ArchResult.unsupported t => ([Event.archValidate], some (MainError.unsupportedArch t))

/-- Embedding of the inspection loop (rpminspect.c lines 555-569):
walk the registry in order; skip entries whose bit is not set in
`tests`; skip entries needing a before build when none is present;
invoke the driver of the rest, recording the name; a false driver
result sets the aggregate failure flag but the loop continues.
Returns the invoked names in order and the aggregate failure flag. -/
def runInspections (registry : List InspectionDescriptor) (drivers : Str → Bool)
    (tests : Nat) (haveBefore : Bool) : List Str × Bool :=
  match registry with
  | [] => ([], false)
  | d :: rest =>
    let r := runInspections rest drivers tests haveBefore
    if tests &&& d.flag == 0 then r
    else if !haveBefore && !d.single_build then r
    else (d.name :: r.1, !(drivers d.name) || r.2)

/-- The inspection-and-formatting phase (rpminspect.c lines 554-579):
skipped entirely in fetch-only mode; the format driver runs only when
results were accumulated. -/
def inspPhase (registry : List InspectionDescriptor) (inp : MainInput)
    (before? : Option Str) : List Event :=
  if inp.fetch_only then []
  else
    ((runInspections registry inp.drivers inp.tests before?.isSome).1).map Event.runInspection
      ++ (if inp.results_nonempty then [Event.formatResults] else [])

/-- Embedding of `main` from the positional-argument handling to the
final return (rpminspect.c lines 441-593), given the parsed before and
after identifiers.  The order of the steps and of the early exits is
exactly that of the source; note that a `gather_builds` failure exits
at line 550 without reaching the cleanup step at lines 581-589, and
that the final return at line 593 is `EXIT_SUCCESS` unconditionally. -/
def runPipelineCore (registry : List InspectionDescriptor) (inp : MainInput)
    (before? : Option Str) (after : Str) : MainResult :=
  if inp.fetch_only && before?.isSome then
    { events := [], exit := ExitStatus.failure, error := some MainError.fetchOnlyTwoBuilds }
  else
    match relCheck inp before? after with
    | (ev1, some e) => { events := ev1, exit := ExitStatus.failure, error := some e }
    | (ev1, none) =>
      if inp.librpmOk then
        match archCheck inp with
        | (ev2, some e) =>
          { events := ev1 ++ ev2, exit := ExitStatus.failure, error := some e }
        | (ev2, none) =>
          if inp.mkdirOk then
            if inp.gatherOk then
              { events := ev1 ++ ev2 ++ [Event.mkdirWork, Event.gatherBuilds]
                  ++ inspPhase registry inp before?
                  ++ [if inp.keep then Event.cleanupKeep else Event.cleanupRemove],
                exit := ExitStatus.success, error := none }
            else
              { events := ev1 ++ ev2 ++ [Event.mkdirWork, Event.gatherBuilds],
                exit := ExitStatus.failure, error := some MainError.gatherFail }
          else
            { events := ev1 ++ ev2 ++ [Event.mkdirWork],
              exit := ExitStatus.failure, error := some MainError.mkdirFail }
      else { events := ev1, exit := ExitStatus.failure, error := some MainError.librpmFail }

/-- The pipeline of `main` including the positional-argument check. -/
def runPipeline (registry : List InspectionDescriptor) (inp : MainInput) : MainResult :=
  match parsePositional inp.positional with
  | none => { events := [], exit := ExitStatus.failure, error := some MainError.invalidBuildSpec }
  | some (before?, after) => runPipelineCore registry inp before? after

/-- One full invocation: the -T and -E options processed in order by the
getopt loop, then (when option processing did not exit) the pipeline,
with `ri.tests` overridden by the selection bitmap exactly when
`selected != 0 || exclude` (rpminspect.c lines 431-433). -/
def runMain (registry : List InspectionDescriptor)
    (opts : List (SelMode × List Str)) (inp : MainInput) : MainResult :=
  match processSelOptions registry opts 0 false false with
  | OptOutcome.conflictExit =>
    { events := [], exit := ExitStatus.failure, error := some MainError.conflictingSelection }
  | OptOutcome.unknownExit t =>
    { events := [], exit := ExitStatus.failure, error := some (MainError.unknownInspection t) }
  | OptOutcome.ok selected _ excl =>
    runPipeline registry
      { inp with tests := if selected != 0 || excl then selected else inp.tests }

/-- Sample two-entry inspection registry used to instantiate the
registry-generic theorems on concrete inputs.  The names are the two
inspection names the source itself mentions (rpminspect.c line 176);
the real registry lives in librpminspect, outside the pipeline. -/
def sampleRegistry : List InspectionDescriptor :=
  [ { name := ("license").toList, flag := 1, single_build := true },
    { name := ("manpage").toList, flag := 2, single_build := false } ]

/-- Baseline concrete invocation: a single build, a user-supplied
release, no architecture filter, both inspections selected, every
collaborator succeeding. -/
def baseInput : MainInput :=
  { positional := [("pkg-1.0.fc30").toList],
    fetch_only := false,
    keep := false,
    release := some (("fc30").toList),
    archopt := none,
    tests := 3,
    librpmOk := true,
    validArches := [],
    mkdirOk := true,
    gatherOk := true,
    drivers := fun _ => true,
    results_nonempty := false }

/-- Comparison invocation with two builds whose inspection drivers all
report failure and whose results are rendered. -/
def comparisonInput : MainInput :=
  { baseInput with
    positional := [("pkg-1.0.fc30").toList, ("pkg-1.1.fc30").toList],
    drivers := fun _ => false,
    results_nonempty := true }

/-- Projection of an event to the inspection name it runs, if any. -/
def inspName : Event → Option Str
  | Event.runInspection n => some n
  | _ => none

theorem takeWhile_append_of_exists_neg {α : Type} (p : α → Bool) (l l' : List α)
    (h : ∃ a ∈ l, p a = false) : (l ++ l').takeWhile p = l.takeWhile p := by
  induction l with
  | nil => simp at h
  | cons a l ih =>
    cases hpa : p a with
    | false => simp [List.takeWhile_cons, hpa]
    | true =>
      obtain ⟨b, hb, hpb⟩ := h
      rcases List.mem_cons.mp hb with hba | hbl
      · rw [hba] at hpb; rw [hpa] at hpb; exact absurd hpb (by simp)
      · simp [List.takeWhile_cons, hpa, ih ⟨b, hbl, hpb⟩]

/-- Characterization of `afterLast`: it finds the suffix after the last
occurrence of `c`, expressible by reversing and taking while not `c`. -/
theorem afterLast_spec (c : Char) (s : Str) :
    afterLast c s =
      if c ∈ s then some ((s.reverse.takeWhile (notChar c)).reverse) else none := by
  induction s with
  | nil => simp [afterLast]
  | cons x xs ih =>
    by_cases hx : c ∈ xs
    · have hrev : ∃ a ∈ xs.reverse, notChar c a = false :=
        ⟨c, List.mem_reverse.mpr hx, by simp [notChar]⟩
      rw [afterLast, ih]
      simp only [hx, if_true, List.mem_cons, or_true, List.reverse_cons]
      rw [takeWhile_append_of_exists_neg (notChar c) xs.reverse [x] hrev]
    · have hall : ∀ a ∈ xs.reverse, notChar c a = true := by
        intro a ha
        have : a ∈ xs := List.mem_reverse.mp ha
        simp only [notChar, bne_iff_ne, ne_eq]
        intro hac
        exact hx (hac ▸ this)
      rw [afterLast, ih]
      simp only [hx, if_false, List.reverse_cons]
      by_cases hxc : x = c
      · subst hxc
        simp only [List.mem_cons, true_or, if_true, hx, or_false, if_pos rfl]
        rw [List.takeWhile_append_of_pos hall]
        simp [notChar]
      · have : c ∉ x :: xs := by
          intro hmem
          rcases List.mem_cons.mp hmem with h1 | h2
          · exact hxc h1.symm
          · exact hx h2
        simp [hxc, this]

/-- Helper for the resolver refinement: with a '.' present, the code's
extraction equals the reversal-based tag. -/
theorem get_product_release_none_of_mem (after : Str) (h : ('.' ∈ after)) :
    get_product_release none after = GPRResult.ok (tagOf after) := by
  unfold get_product_release
  rw [afterLast_spec]
  simp only [h, if_true]
  rfl

/-- C5 (amended): for every after identifier, and every before
identifier that contains a '.' when supplied (a before without '.' is
the undefined-behaviour slip recorded for C2), `get_product_release`
agrees with the amended contract `resolveSpec`: the tag is the substring
following the last '.' truncated at the first '/'; a missing '.' in the
after identifier fails attributed to the after build (an empty trimmed
result is returned as the empty tag, not an error); differing tags fail
naming both tags; an absent before yields the after tag. -/
theorem resolver_refines_spec (before? : Option Str) (after : Str)
    (hb : ∀ b, before? = some b → ('.' ∈ b)) :
    get_product_release before? after = resolveSpec before? after := by
  by_cases h : ('.' ∈ after)
  · cases before? with
    | none =>
      rw [get_product_release_none_of_mem after h]
      simp [resolveSpec, h]
    | some b =>
      have hbb : ('.' ∈ b) := hb b rfl
      unfold get_product_release resolveSpec
      rw [afterLast_spec]
      simp only [h, if_true]
      rw [afterLast_spec]
      simp only [hbb, if_true]
      rfl
  · unfold get_product_release resolveSpec
    rw [afterLast_spec]
    simp [h]

/-- C2: for a before identifier containing no '.', `get_product_release`
does not return the before-attributed EmptyProductRelease error: it
computes `rindex(before, '.') + 1` on a NULL result (rpminspect.c line
108), which is undefined behaviour, evaluated here at the concrete input
before = "builddir", after = "pkg-1.0.fc30". -/
theorem before_without_dot_undefined_behavior :
    get_product_release (some (("builddir").toList)) (("pkg-1.0.fc30").toList)
      = GPRResult.undefinedBehavior := by decide

/-- C5 counterexample: the claim as stated fails on the code at two
concrete inputs.  First, after = "pkg." has a '.' but an empty trimmed
tag, and the code returns the empty tag successfully instead of failing
with EmptyProductRelease.  Second, after = "a.b/c" has a non-trailing
'/' after the last '.', and the code truncates at that first '/'
(yielding "b"), rather than stripping only trailing '/' characters
(which would yield "b/c"). -/
theorem product_release_claim_counterexample :
    get_product_release none (("pkg.").toList) = GPRResult.ok [] ∧
    get_product_release none (("a.b/c").toList) = GPRResult.ok (("b").toList) := by
  decide

/-- C5 witness: the amended resolver contract applied at the spec's own
example, before = "pkg-1.2.3.fc30", after = "pkg-1.3.0.fc30/". -/
theorem resolver_refines_spec_witness :
    get_product_release (some (("pkg-1.2.3.fc30").toList)) (("pkg-1.3.0.fc30/").toList)
      = resolveSpec (some (("pkg-1.2.3.fc30").toList)) (("pkg-1.3.0.fc30/").toList) :=
  resolver_refines_spec _ _ (fun b hb => by
    injection hb with h
    subst h
    decide)

/-- C10: for every after identifier containing a '.', the extracted tag
is the suffix after the last '.' truncated at the first '/' in that
suffix — the final `takeWhile` keeps only the part strictly before the
first '/', discarding everything from that '/' onward, not only
trailing slashes. -/
theorem tag_truncates_at_first_slash (after : Str) (h : ('.' ∈ after)) :
    get_product_release none after =
      GPRResult.ok (((after.reverse.takeWhile (notChar '.')).reverse).takeWhile (notChar '/')) := by
  rw [get_product_release_none_of_mem after h]
  rfl

/-- C10 witness: the identifier "pkg-1.2.fc30/rest", whose '/' is not
trailing, yields the tag "fc30". -/
theorem tag_truncates_at_first_slash_witness :
    get_product_release none (("pkg-1.2.fc30/rest").toList) = GPRResult.ok (("fc30").toList) := by
  rw [tag_truncates_at_first_slash (("pkg-1.2.fc30/rest").toList) (by decide)]
  decide

/-- Helper: once a selection option has been processed successfully, any
further selection option, of either mode, makes `check_inspection_options`
exit with the mutual-exclusion diagnostic before looking at that
option's own tokens. -/
theorem conflict_on_second_selection (registry : List InspectionDescriptor)
    (m1 m2 : SelMode) (ts es : List Str) (rest : List (SelMode × List Str))
    (inp : MainInput) (s : Nat) (e : Bool)
    (hfirst : processSelOption registry m1 ts 0 false = OptOutcome.ok s true e) :
    runMain registry ((m1, ts) :: (m2, es) :: rest) inp =
      { events := [], exit := ExitStatus.failure,
        error := some MainError.conflictingSelection } := by
  have h2 : processSelOption registry m2 es s true = OptOutcome.conflictExit := by
    unfold processSelOption
    simp
  have h1 : processSelOptions registry ((m1, ts) :: (m2, es) :: rest) 0 false false
      = OptOutcome.conflictExit := by
    simp only [processSelOptions, hfirst, h2]
  unfold runMain
  rw [h1]

/-- C4 counterexample: with an invalid token in the -T list, the
invocation `-T foo -E bar` exits with the unknown-test diagnostic for
"foo", not with the mutual-exclusion diagnostic, because `check_found`
exits while the -T option is still being processed, before the -E
option is seen. -/
theorem conflicting_selection_claim_counterexample :
    runMain sampleRegistry
        [(SelMode.tests, [("foo").toList]), (SelMode.exclude, [("bar").toList])]
        baseInput =
      { events := [], exit := ExitStatus.failure,
        error := some (MainError.unknownInspection (("foo").toList)) } ∧
    (runMain sampleRegistry
        [(SelMode.tests, [("foo").toList]), (SelMode.exclude, [("bar").toList])]
        baseInput).error ≠ some MainError.conflictingSelection := by
  decide

/-- C4 (amended): when the -T list processes successfully (all tokens
valid), a following -E option — whatever its tokens — makes the run
fail with the mutual-exclusion (ConflictingSelection) diagnostic, with
no step of the pipeline performed and hence before any inspection runs. -/
theorem conflicting_modes_abort (registry : List InspectionDescriptor)
    (ts es : List Str) (rest : List (SelMode × List Str)) (inp : MainInput)
    (s : Nat) (e : Bool)
    (hfirst : processSelOption registry SelMode.tests ts 0 false = OptOutcome.ok s true e)
    (_hmodes : SelMode.tests ≠ SelMode.exclude) :
    runMain registry ((SelMode.tests, ts) :: (SelMode.exclude, es) :: rest) inp =
      { events := [], exit := ExitStatus.failure,
        error := some MainError.conflictingSelection } :=
  conflict_on_second_selection registry SelMode.tests SelMode.exclude ts es rest inp s e hfirst

/-- C4 witness: a valid -T list ("license") followed by any -E list
fails with the mutual-exclusion error. -/
theorem conflicting_modes_abort_witness :
    runMain sampleRegistry
        [(SelMode.tests, [("license").toList]), (SelMode.exclude, [("bar").toList])]
        baseInput =
      { events := [], exit := ExitStatus.failure,
        error := some MainError.conflictingSelection } :=
  conflicting_modes_abort sampleRegistry
    [("license").toList] [("bar").toList] [] baseInput 1 false (by decide) (by decide)

/-- C9: the conflict check rejects any second selection option, not only
the opposite mode: once the first selection option (either mode) has
been processed successfully, processing a second selection option of any
mode fails with the mutual-exclusion diagnostic and the process exits
with failure status. -/
theorem second_selection_always_conflicts (registry : List InspectionDescriptor)
    (m1 m2 : SelMode) (ts es : List Str) (rest : List (SelMode × List Str))
    (inp : MainInput) (s : Nat) (e : Bool)
    (hfirst : processSelOption registry m1 ts 0 false = OptOutcome.ok s true e) :
    runMain registry ((m1, ts) :: (m2, es) :: rest) inp =
      { events := [], exit := ExitStatus.failure,
        error := some MainError.conflictingSelection } :=
  conflict_on_second_selection registry m1 m2 ts es rest inp s e hfirst

/-- C9 witness: two -T options — the same mode twice — also fail with
the mutual-exclusion error. -/
theorem second_selection_always_conflicts_witness :
    runMain sampleRegistry
        [(SelMode.tests, [("license").toList]), (SelMode.tests, [("manpage").toList])]
        baseInput =
      { events := [], exit := ExitStatus.failure,
        error := some MainError.conflictingSelection } :=
  second_selection_always_conflicts sampleRegistry SelMode.tests SelMode.tests
    [("license").toList] [("manpage").toList] [] baseInput 1 false (by decide)

/-- C7: the architecture validator checks the tokens in order and fails
naming the first token not found among the supported architectures — no
partial list is accepted, the result is an error; when every token is
supported it returns exactly the token list, in its original order with
duplicates preserved. -/
theorem arch_validator_first_failure (valid : List Str) (tokens : List Str) :
    validateArches valid tokens =
      match tokens.find? (fun t => !(valid.contains t)) with
      | some t => ArchResult.unsupported t
      | none => ArchResult.ok tokens := by
  induction tokens with
  | nil => rfl
  | cons t ts ih =>
    rw [validateArches, List.find?_cons]
    cases hc : valid.contains t with
    | true =>
      rw [if_pos rfl, ih]
      cases hf : List.find? (fun t => !valid.contains t) ts <;> simp
    | false => simp

/-- C8: fetch-only mode together with a before build (two positional
arguments) aborts with the fetch-only diagnostic; the result performs
no step at all — in particular neither product-release resolution, nor
architecture validation, nor workdir creation, nor build gathering. -/
theorem fetch_only_two_builds_aborts (registry : List InspectionDescriptor)
    (inp : MainInput) (b a : Str)
    (hpos : inp.positional = [b, a]) (hf : inp.fetch_only = true) :
    runPipeline registry inp =
      { events := [], exit := ExitStatus.failure,
        error := some MainError.fetchOnlyTwoBuilds } := by
  unfold runPipeline
  rw [hpos]
  show runPipelineCore registry inp (some b) a = _
  unfold runPipelineCore
  rw [hf]
  rfl

/-- C8 witness: fetch-only with two concrete builds. -/
theorem fetch_only_two_builds_aborts_witness :
    runPipeline sampleRegistry
        { baseInput with
          positional := [("pkg-1.0.fc30").toList, ("pkg-1.1.fc30").toList],
          fetch_only := true, keep := true } =
      { events := [], exit := ExitStatus.failure,
        error := some MainError.fetchOnlyTwoBuilds } :=
  fetch_only_two_builds_aborts sampleRegistry
    { baseInput with
      positional := [("pkg-1.0.fc30").toList, ("pkg-1.1.fc30").toList],
      fetch_only := true, keep := true }
    (("pkg-1.0.fc30").toList) (("pkg-1.1.fc30").toList) rfl rfl

theorem relCheck_filterMap_inspName (inp : MainInput) (b? : Option Str) (a : Str) :
    ((relCheck inp b? a).1).filterMap inspName = [] := by
  unfold relCheck
  cases inp.release with
  | some r => rfl
  | none => cases hr : get_product_release b? a <;> simp [hr, inspName]

theorem archCheck_filterMap_inspName (inp : MainInput) :
    ((archCheck inp).1).filterMap inspName = [] := by
  unfold archCheck
  cases inp.archopt with
  | none => rfl
  | some s => cases hv : validateArches inp.validArches (splitComma s) <;> simp [hv, inspName]

theorem mkdirWork_notin_relCheck (inp : MainInput) (b? : Option Str) (a : Str) :
    Event.mkdirWork ∉ (relCheck inp b? a).1 := by
  unfold relCheck
  cases inp.release with
  | some r => simp
  | none => cases hr : get_product_release b? a <;> simp [hr]

theorem mkdirWork_notin_archCheck (inp : MainInput) :
    Event.mkdirWork ∉ (archCheck inp).1 := by
  unfold archCheck
  cases inp.archopt with
  | none => simp
  | some s => cases hv : validateArches inp.validArches (splitComma s) <;> simp [hv]

/-- Helper: on a run whose error is `none`, the pipeline took the
success path, so its event trace has the full shape ending in the
cleanup step and its exit status is success. -/
theorem runPipelineCore_error_none (registry : List InspectionDescriptor) (inp : MainInput)
    (before? : Option Str) (after : Str)
    (hdone : (runPipelineCore registry inp before? after).error = none) :
    runPipelineCore registry inp before? after =
      { events := (relCheck inp before? after).1 ++ (archCheck inp).1
          ++ [Event.mkdirWork, Event.gatherBuilds] ++ inspPhase registry inp before?
          ++ [if inp.keep then Event.cleanupKeep else Event.cleanupRemove],
        exit := ExitStatus.success, error := none } := by
  revert hdone
  unfold runPipelineCore
  cases hfb : (inp.fetch_only && before?.isSome) with
  | true => intro hdone; simp at hdone
  | false =>
    cases hrel : relCheck inp before? after with
    | mk ev1 err1 =>
      cases err1 with
      | some e => intro hdone; simp at hdone
      | none =>
        cases hlib : inp.librpmOk with
        | false => intro hdone; simp at hdone
        | true =>
          cases harch : archCheck inp with
          | mk ev2 err2 =>
            cases err2 with
            | some e => intro hdone; simp at hdone
            | none =>
              cases hmk : inp.mkdirOk with
              | false => intro hdone; simp at hdone
              | true =>
                cases hg : inp.gatherOk with
                | false => intro hdone; simp at hdone
                | true => intro _; simp

/-- Helper: the sequence of inspections the loop invokes is exactly the
selected-and-applicable sublist of the registry, in registry order, and
does not depend on the driver outcomes. -/
theorem runInspections_fst (registry : List InspectionDescriptor) (drivers : Str → Bool)
    (tests : Nat) (haveBefore : Bool) :
    (runInspections registry drivers tests haveBefore).1 =
      (registry.filter (fun d =>
          (tests &&& d.flag != 0) && (haveBefore || d.single_build))).map
        (fun d => d.name) := by
  induction registry with
  | nil => rfl
  | cons d rest ih =>
    rw [runInspections, List.filter_cons]
    have hbne : (tests &&& d.flag != 0) = !(tests &&& d.flag == 0) := rfl
    rw [hbne]
    cases tests &&& d.flag == 0 <;> cases haveBefore <;> cases d.single_build <;>
      simp [ih]

theorem filterMap_inspName_map (names : List Str) :
    (names.map Event.runInspection).filterMap inspName = names := by
  induction names with
  | nil => rfl
  | cons n ns ih => simp [inspName, ih]

theorem filterMap_inspName_comp (l : List Str) :
    l.filterMap (inspName ∘ Event.runInspection) = l := by
  induction l with
  | nil => rfl
  | cons a as ih => simp [List.filterMap_cons, Function.comp, inspName, ih]

/-- C3: on every non-fetch-only run that completes without an early
abort (its error is `none`), the process exit status is success — the
final return of `main` is `EXIT_SUCCESS` unconditionally (rpminspect.c
line 593), even when inspection drivers failed and the aggregate
failure indicator `ret` was set at line 567. -/
theorem final_exit_ignores_inspection_failures (registry : List InspectionDescriptor)
    (inp : MainInput) (_hf : inp.fetch_only = false)
    (hdone : (runPipeline registry inp).error = none) :
    (runPipeline registry inp).exit = ExitStatus.success := by
  revert hdone
  unfold runPipeline
  cases hp : parsePositional inp.positional with
  | none => intro hdone; simp at hdone
  | some pa =>
    obtain ⟨b?, a⟩ := pa
    intro hdone
    show (runPipelineCore registry inp b? a).exit = ExitStatus.success
    rw [runPipelineCore_error_none registry inp b? a hdone]

/-- C3 witness: a two-build run in which every selected inspection
driver reports failure still exits with success. -/
theorem final_exit_ignores_inspection_failures_witness :
    (runPipeline sampleRegistry comparisonInput).exit = ExitStatus.success :=
  final_exit_ignores_inspection_failures sampleRegistry comparisonInput rfl (by decide)

/-- C6: on every non-fetch-only run that completes the pipeline, the
inspections whose drivers are invoked, in order, are exactly those
registry entries whose bit is set in the selection bitmap and which are
applicable (a before build is present or the entry supports single-build
runs) — for every assignment of driver outcomes, so a failing driver
never prevents a later selected, applicable inspection from running. -/
theorem inspections_run_in_registry_order (registry : List InspectionDescriptor)
    (inp : MainInput) (before? : Option Str) (after : Str)
    (hpos : parsePositional inp.positional = some (before?, after))
    (hf : inp.fetch_only = false)
    (hdone : (runPipeline registry inp).error = none) :
    ((runPipeline registry inp).events).filterMap inspName =
      (registry.filter (fun d =>
          (inp.tests &&& d.flag != 0) && (before?.isSome || d.single_build))).map
        (fun d => d.name) := by
  have hcore : (runPipelineCore registry inp before? after).error = none := by
    unfold runPipeline at hdone
    rw [hpos] at hdone
    exact hdone
  unfold runPipeline
  rw [hpos]
  show ((runPipelineCore registry inp before? after).events).filterMap inspName = _
  rw [runPipelineCore_error_none registry inp before? after hcore]
  unfold inspPhase
  rw [hf]
  cases inp.results_nonempty <;> cases inp.keep <;>
    (simp only [List.filterMap_append, relCheck_filterMap_inspName,
       archCheck_filterMap_inspName, filterMap_inspName_map]
     simp [inspName]
     rw [filterMap_inspName_comp, runInspections_fst])

/-- C6 witness: with both inspections selected and a before build
present, both drivers run in registry order even though every driver
reports failure. -/
theorem inspections_run_in_registry_order_witness :
    ((runPipeline sampleRegistry comparisonInput).events).filterMap inspName =
      [("license").toList, ("manpage").toList] := by
  rw [inspections_run_in_registry_order sampleRegistry comparisonInput
    (some (("pkg-1.0.fc30").toList)) (("pkg-1.1.fc30").toList) rfl rfl (by decide)]
  decide

/-- C1 counterexample: an invocation on which `mkdirp` succeeded (the
workdir was created) but `gather_builds` failed: the run terminates at
the gather step and its trace contains neither cleanup step — the exit
at rpminspect.c line 550 happens before the cleanup code at lines
581-589. -/
theorem gather_failure_exits_without_release :
    Event.mkdirWork ∈
        (runPipeline sampleRegistry { baseInput with gatherOk := false }).events ∧
    Event.cleanupRemove ∉
        (runPipeline sampleRegistry { baseInput with gatherOk := false }).events ∧
    Event.cleanupKeep ∉
        (runPipeline sampleRegistry { baseInput with gatherOk := false }).events := by
  decide

/-- C1 (amended): on every run in which the workdir creation step was
reached and succeeded, and on which build gathering does not fail, the
pipeline performs the workdir release step (the retention message when
keep is set, the recursive removal otherwise) before terminating; the
build-gather failure path is the exception, exiting without the release
step. -/
theorem workdir_release_on_surviving_paths (registry : List InspectionDescriptor)
    (inp : MainInput)
    (hcre : Event.mkdirWork ∈ (runPipeline registry inp).events)
    (hmk : inp.mkdirOk = true) (hg : inp.gatherOk = true) :
    (if inp.keep then Event.cleanupKeep else Event.cleanupRemove)
      ∈ (runPipeline registry inp).events := by
  revert hcre
  unfold runPipeline
  cases hp : parsePositional inp.positional with
  | none => intro hcre; simp at hcre
  | some pa =>
    obtain ⟨b?, a⟩ := pa
    show Event.mkdirWork ∈ (runPipelineCore registry inp b? a).events →
      (if inp.keep then Event.cleanupKeep else Event.cleanupRemove)
        ∈ (runPipelineCore registry inp b? a).events
    unfold runPipelineCore
    cases hfb : (inp.fetch_only && b?.isSome) with
    | true => intro hcre; simp at hcre
    | false =>
      cases hrel : relCheck inp b? a with
      | mk ev1 err1 =>
        have h1 : Event.mkdirWork ∉ ev1 := by
          have h := mkdirWork_notin_relCheck inp b? a
          rw [hrel] at h
          exact h
        cases err1 with
        | some e => intro hcre; exact absurd hcre h1
        | none =>
          cases hlib : inp.librpmOk with
          | false => intro hcre; exact absurd hcre h1
          | true =>
            cases harch : archCheck inp with
            | mk ev2 err2 =>
              have h2 : Event.mkdirWork ∉ ev2 := by
                have h := mkdirWork_notin_archCheck inp
                rw [harch] at h
                exact h
              cases err2 with
              | some e =>
                intro hcre
                rcases List.mem_append.mp hcre with hc | hc
                · exact absurd hc h1
                · exact absurd hc h2
              | none =>
                rw [hmk, hg]
                intro _
                simp [List.mem_append]

/-- C1 witness: on the fully successful baseline run (keep unset), the
recursive-removal step is in the trace. -/
theorem workdir_release_on_surviving_paths_witness :
    (if baseInput.keep then Event.cleanupKeep else Event.cleanupRemove)
      ∈ (runPipeline sampleRegistry baseInput).events :=
  workdir_release_on_surviving_paths sampleRegistry baseInput (by decide) rfl rfl

end Rpminspect

